import Mathlib

/-!
Shallow embedding of the client-side networking core of
real-time-networking-demo (src/index.ts and src/math.ts), over the
rationals.  JavaScript numbers are modelled as rationals; the ambient
calls to Math.random are modelled by passing each drawn sample as an
explicit argument.  DOM / rendering state is out of scope and omitted
from the client record.
-/

namespace RTN

/-- src/math.ts: lerp(a, b, alpha) = a + (b - a) * alpha. -/
def lerp (a b alpha : ℚ) : ℚ := a + (b - a) * alpha

/-- src/index.ts line 7: SERVER_TICK_DURATION = 1.0 / 90.0. -/
def SERVER_TICK_DURATION : ℚ := 1 / 90

/-- src/index.ts line 5: NUM_ENTITIES = 4. -/
def NUM_ENTITIES : ℕ := 4

/-- src/index.ts line 9: a 2d vector. -/
structure Vec2 where
  x : ℚ
  y : ℚ
  deriving DecidableEq

/-- src/index.ts lines 10-15 (DOM handles of the variant layout omitted). -/
structure Entity where
  position : Vec2
  speed : ℚ
  angle : ℚ
  angularVelocity : ℚ
  deriving DecidableEq

/-- src/index.ts lines 17-19. -/
structure Game where
  entities : List Entity
  deriving DecidableEq

/-- src/index.ts lines 29-32: a snapshot sent from the server. -/
structure ServerNetMessage where
  tick : ℚ
  entityPositions : List Vec2
  deriving DecidableEq

/-- src/index.ts lines 34-42: a message waiting in the simulated transport. -/
structure ClientInFlightMessage where
  message : ServerNetMessage
  timeRemaining : ℚ
  deriving DecidableEq

/-- src/index.ts lines 52-74: simulated network conditions and queue. -/
structure NetSim where
  latency : ℚ
  jitter : ℚ
  packetLoss : ℚ
  inFlightMessages : List ClientInFlightMessage
  deriving DecidableEq

/-- src/index.ts lines 79-85: client-side measured conditions. -/
structure NetMeasured where
  latency : ℚ
  jitter : ℚ
  packetLoss : ℚ
  jitterBackBuffer : List ℚ
  deriving DecidableEq

/-- src/index.ts lines 48-102: the net sub-object of the client. -/
structure ClientNet where
  sim : NetSim
  measured : NetMeasured
  lastReceivedTick : ℚ
  backBuffer : List ServerNetMessage
  interpolationDelay : ℚ
  deriving DecidableEq

/-- src/index.ts lines 46-127: the client (display fields omitted). -/
structure Client where
  game : Game
  net : ClientNet
  tick : ℚ
  tickAccumulator : ℚ
  clockPaused : Bool
  tickDuration : ℚ
  prevNetState : Option ServerNetMessage
  nextNetState : Option ServerNetMessage
  deriving DecidableEq

/-- src/index.ts lines 21-27: the server (game omitted where unused). -/
structure Server where
  game : Game
  tick : ℚ
  tickDuration : ℚ
  tickAccumulator : ℚ
  deriving DecidableEq

/-- The entity stored for each client slot by initAppState (lines 186-191,
206-208): position (0.5, 0.5), all motion fields zero. -/
def initialEntity : Entity :=
  { position := { x := 1/2, y := 1/2 }, speed := 0, angle := 0, angularVelocity := 0 }

/-- The client of the app literal, src/index.ts lines 141-173, with the
NUM_ENTITIES client entities added by initAppState (lines 184-210).  This is
the client state in force when the first frame runs. -/
def initialClient : Client :=
  { game := { entities := List.replicate NUM_ENTITIES initialEntity }
    net :=
      { sim := { latency := 200, jitter := 0, packetLoss := 0, inFlightMessages := [] }
        measured := { latency := 0, jitter := 0, packetLoss := 0, jitterBackBuffer := [] }
        lastReceivedTick := 0
        backBuffer := []
        interpolationDelay := 2 }
    tick := 0
    tickAccumulator := 0
    clockPaused := false
    tickDuration := SERVER_TICK_DURATION
    prevNetState := none
    nextNetState := none }

/-- src/index.ts lines 297-300: the snapshot built from the server state. -/
def serverMessage (s : Server) : ServerNetMessage :=
  { tick := s.tick, entityPositions := s.game.entities.map (fun e => e.position) }

/-- src/index.ts lines 303-317, the per-client body of serverNetSend.
Math.random() for the drop decision and for the jitter draw are passed in as
dropRoll and jitterRoll (each drawn uniformly from [0,1) by the source). -/
def serverNetSend (message : ServerNetMessage) (dropRoll jitterRoll : ℚ)
    (client : Client) : Client :=
  let shouldDropPacket := dropRoll < client.net.sim.packetLoss
  if shouldDropPacket then client
  else
    let latency := client.net.sim.latency
    let jitter := (2 * jitterRoll - 1) * client.net.sim.jitter
    let inFlightMessage : ClientInFlightMessage :=
      { message := message, timeRemaining := ((latency / 2) + jitter) / 1000 }
    { client with net.sim.inFlightMessages :=
        client.net.sim.inFlightMessages ++ [inFlightMessage] }

/-- src/index.ts line 353: the client clock expressed in (fractional) ticks. -/
def clientTime (c : Client) : ℚ := c.tick + c.tickAccumulator / c.tickDuration

/-- src/index.ts line 361. -/
def MAX_JITTER_ROLLING_AVERAGE : ℕ := 5

/-- src/index.ts lines 356-366: push the offset sample, then splice the
window down to the last MAX_JITTER_ROLLING_AVERAGE entries. -/
def pushSample (jbb : List ℚ) (sample : ℚ) : List ℚ :=
  let jbb2 := jbb ++ [sample]
  if MAX_JITTER_ROLLING_AVERAGE < jbb2.length then
    jbb2.drop (jbb2.length - MAX_JITTER_ROLLING_AVERAGE)
  else jbb2

/-- src/index.ts lines 369-370: mean of the jitter back buffer. -/
def meanOf (l : List ℚ) : ℚ := l.foldl (fun a c => a + c) 0 / l.length

/-- src/index.ts lines 374-377: the drift-corrected tick duration. -/
def driftDuration (jbb : List ℚ) : ℚ :=
  max (SERVER_TICK_DURATION * (9/10))
      (SERVER_TICK_DURATION - (1/100) * (meanOf jbb * SERVER_TICK_DURATION))

/-- src/index.ts lines 349-410: onReceiveServerMessage.  Offset sampling and
drift correction run first; the staleness gate (line 390) only protects
lastReceivedTick, the pause-resume transition and the back buffer push. -/
def onReceiveServerMessage (client : Client) (message : ServerNetMessage) : Client :=
  let clockDiffForPacket := message.tick - clientTime client
  let jbb := pushSample client.net.measured.jitterBackBuffer clockDiffForPacket
  let newTickDuration := driftDuration jbb
  let client :=
    { client with net.measured.jitterBackBuffer := jbb, tickDuration := newTickDuration }
  if message.tick < client.net.lastReceivedTick then client
  else
    let client := { client with net.lastReceivedTick := message.tick }
    let client :=
      if client.clockPaused then
        { client with clockPaused := false, tick := message.tick, tickAccumulator := 0 }
      else client
    { client with net.backBuffer := client.net.backBuffer ++ [message] }

/-- One step of the filter of src/index.ts lines 415-425: decrement the
remaining time, deliver when it reaches zero, otherwise keep the message. -/
def inFlightStep (rdt : ℚ) (acc : Client × List ClientInFlightMessage)
    (ifm : ClientInFlightMessage) : Client × List ClientInFlightMessage :=
  let ifm := { ifm with timeRemaining := ifm.timeRemaining - rdt }
  if ifm.timeRemaining ≤ 0 then
    (onReceiveServerMessage acc.1 ifm.message, acc.2)
  else
    (acc.1, acc.2 ++ [ifm])

/-- src/index.ts lines 415-425: advance the simulated transport by rdt and
deliver every message whose remaining time is up, in queue order. -/
def processInFlight (rdt : ℚ) (client : Client) : Client :=
  let r := client.net.sim.inFlightMessages.foldl (inFlightStep rdt) (client, [])
  { r.1 with net.sim.inFlightMessages := r.2 }

/-- The while loop of src/index.ts lines 432-435, as fuelled recursion:
while the accumulator exceeds the tick duration, subtract it and count a
tick.  The caller supplies enough fuel for the loop to reach its exit
condition. -/
def tickLoop (tickDuration : ℚ) : ℕ → ℚ → ℚ → ℚ × ℚ
  | 0, acc, tick => (acc, tick)
  | fuel + 1, acc, tick =>
    if tickDuration < acc then tickLoop tickDuration fuel (acc - tickDuration) (tick + 1)
    else (acc, tick)

/-- src/index.ts lines 429-436: the per-frame clock advance. -/
def advanceClock (rdt : ℚ) (client : Client) : Client :=
  if client.clockPaused then client
  else
    let acc := client.tickAccumulator + rdt
    let fuel := (Int.ceil (acc / client.tickDuration)).toNat
    let r := tickLoop client.tickDuration fuel acc client.tick
    { client with tickAccumulator := r.1, tick := r.2 }

/-- src/index.ts lines 452-454: the sub-tick time targeted for rendering. -/
def targetSubTickOf (c : Client) : ℚ :=
  c.tick + c.tickAccumulator / c.tickDuration - c.net.interpolationDelay

/-- src/index.ts lines 458-459: buffer empty, or the target time is past the
newest buffered snapshot. -/
def pauseCondition (c : Client) : Bool :=
  match c.net.backBuffer.getLast? with
  | none => true
  | some m => decide (m.tick < targetSubTickOf c)

/-- JavaScript Array.prototype.findIndex: index of the first element
satisfying p, and -1 when there is none (used at src/index.ts line 470). -/
def findIndexJs {α : Type} (p : α → Bool) : List α → ℤ
  | [] => -1
  | a :: rest =>
    if p a then 0
    else
      let r := findIndexJs p rest
      if r < 0 then -1 else r + 1

/-- JavaScript splice(0, deleteCount) as used at src/index.ts line 481: a
non-positive deleteCount removes nothing, otherwise the first deleteCount
elements are removed. -/
def spliceDrop {α : Type} (l : List α) (deleteCount : ℤ) : List α :=
  if deleteCount ≤ 0 then l else l.drop deleteCount.toNat

/-- src/index.ts lines 506-517, one entity at list offset idx: interpolate
the position componentwise between the bracketing snapshots. -/
def interpolateEntitiesFrom (prevPos nextPos : List Vec2) (alpha : ℚ) :
    ℕ → List Entity → List Entity
  | _, [] => []
  | idx, e :: es =>
    (match prevPos[idx]?, nextPos[idx]? with
     | some pp, some np =>
       { e with position := { x := lerp pp.x np.x alpha, y := lerp pp.y np.y alpha } }
     | _, _ => e) :: interpolateEntitiesFrom prevPos nextPos alpha (idx + 1) es

/-- src/index.ts lines 506-517: the forEach over client.game.entities. -/
def interpolateEntities (es : List Entity) (prevPos nextPos : List Vec2)
    (alpha : ℚ) : List Entity :=
  interpolateEntitiesFrom prevPos nextPos alpha 0 es

/-- src/index.ts lines 489-517: the early returns for a missing bracket
bound, and otherwise the alpha computation and the interpolation pass. -/
def interpApply (c : Client) (targetSubTick : ℚ)
    (prevNetState nextNetState : Option ServerNetMessage) : Client :=
  match nextNetState, prevNetState with
  | none, _ => c
  | some _, none => c
  | some nextS, some prevS =>
    let t := targetSubTick
    let p := prevS.tick
    let n := nextS.tick
    let alpha := 1 - ((n - t) / (n - p))
    { c with game.entities :=
        (interpolateEntities c.game.entities prevS.entityPositions
          nextS.entityPositions alpha) }

/-- src/index.ts lines 452-517: pause check, bracket search, buffer trim and
interpolation for one frame. -/
def interpSection (c : Client) : Client :=
  if pauseCondition c then { c with clockPaused := true }
  else
    let targetSubTick := targetSubTickOf c
    let nextNetStateIdx : ℤ :=
      findIndexJs (fun m => decide (targetSubTick < m.tick)) c.net.backBuffer
    let prevNetState : Option ServerNetMessage :=
      if 0 < nextNetStateIdx then c.net.backBuffer[(nextNetStateIdx - 1).toNat]? else none
    let nextNetState : Option ServerNetMessage :=
      if 0 ≤ nextNetStateIdx then c.net.backBuffer[nextNetStateIdx.toNat]? else none
    let c2 :=
      { c with prevNetState := prevNetState, nextNetState := nextNetState,
               net.backBuffer := spliceDrop c.net.backBuffer (nextNetStateIdx - 1) }
    interpApply c2 targetSubTick prevNetState nextNetState

/-- src/index.ts lines 412-518: the per-frame client update: transport
delivery, clock advance, then pause check / bracket / interpolation. -/
def clientFrame (rdt : ℚ) (c : Client) : Client :=
  interpSection (advanceClock rdt (processInFlight rdt c))

/-- The configuration surface of the code: the app object is exposed on
window (src/index.ts line 180) and the simulated network conditions are
changed by assigning the fields of client.net.sim directly; the source
contains no validation or clamping logic anywhere. -/
def setSimConditions (latency jitter packetLoss : ℚ) (c : Client) : Client :=
  { c with net.sim.latency := latency, net.sim.jitter := jitter,
           net.sim.packetLoss := packetLoss }

/-- The client-mutating operations of the source: a frame step (with the
nonnegative real-time delta derived from the monotone frame timestamps), the
transport enqueue of a freshly sent snapshot, and a single delivery through
the admission gate. -/
inductive ClientStep : Client → Client → Prop where
  | frame (rdt : ℚ) (c : Client) (h : 0 ≤ rdt) : ClientStep c (clientFrame rdt c)
  | netSend (msg : ServerNetMessage) (dropRoll jitterRoll : ℚ) (c : Client) :
      ClientStep c (serverNetSend msg dropRoll jitterRoll c)
  | deliver (msg : ServerNetMessage) (c : Client) :
      ClientStep c (onReceiveServerMessage c msg)

/-- Client states reachable from the initial app state. -/
inductive Reachable : Client → Prop where
  | init : Reachable initialClient
  | step {c c2 : Client} : Reachable c → ClientStep c c2 → Reachable c2

/-- The back buffer is sorted by tick, allowing equal neighbours. -/
def BufferSorted (c : Client) : Prop :=
  c.net.backBuffer.Pairwise (fun a b => a.tick ≤ b.tick)

/-- The back buffer is strictly ascending by tick. -/
def BufferStrict (c : Client) : Prop :=
  c.net.backBuffer.Pairwise (fun a b => a.tick < b.tick)

/-- Every buffered tick is bounded by the last received tick. -/
def BufferBounded (c : Client) : Prop :=
  ∀ m ∈ c.net.backBuffer, m.tick ≤ c.net.lastReceivedTick

/-- The state invariant maintained by every operation of the source: the
back buffer is sorted and bounded by lastReceivedTick, the clock
accumulator is nonnegative, and the drift-corrected tick duration never
drops below ninety percent of the server tick duration. -/
def Inv (c : Client) : Prop :=
  BufferSorted c ∧ BufferBounded c ∧ 0 ≤ c.tickAccumulator ∧
    SERVER_TICK_DURATION * (9/10) ≤ c.tickDuration

/-- Scenario snapshot at tick 5 with one entity at the origin. -/
def snapA : ServerNetMessage :=
  { tick := 5, entityPositions := [{ x := 0, y := 0 }] }

/-- Scenario snapshot at tick 7 with one entity at (10, 10). -/
def snapB : ServerNetMessage :=
  { tick := 7, entityPositions := [{ x := 10, y := 10 }] }

/-- A client about to render sub-tick 6 with snapA and snapB buffered:
tick 8, accumulator 0, interpolation delay 2, one entity. -/
def bracketClient : Client :=
  { initialClient with
      game := { entities := [initialEntity] }
      net.backBuffer := [snapA, snapB]
      net.lastReceivedTick := 7
      tick := 8 }

end RTN

namespace RTN

theorem findIndexJs_cases {α : Type} (p : α → Bool) (l : List α) :
    findIndexJs p l = -1 ∨ ∃ n : ℕ, findIndexJs p l = (n : ℤ) ∧ n < l.length := by
  induction l with
  | nil => exact Or.inl rfl
  | cons a t ih =>
    by_cases hpa : p a
    · exact Or.inr ⟨0, by simp [findIndexJs, hpa], by simp⟩
    · rcases ih with h | ⟨n, hn, hlt⟩
      · refine Or.inl ?h
        simp [findIndexJs, hpa, h]
      · refine Or.inr ⟨n + 1, ?h1, by simpa using Nat.succ_lt_succ hlt⟩
        have hnn : ¬ ((n : ℤ) < 0) := by omega
        simp [findIndexJs, hpa, hn, hnn]

theorem findIndexJs_spec {α : Type} (p : α → Bool) (l : List α) (n : ℕ)
    (h : findIndexJs p l = (n : ℤ)) :
    ∃ hn : n < l.length, p (l.get ⟨n, hn⟩) = true ∧
      ∀ j : ℕ, j < n → ∀ hj : j < l.length, p (l.get ⟨j, hj⟩) = false := by
  induction l generalizing n with
  | nil => simp [findIndexJs] at h
  | cons a t ih =>
    by_cases hpa : p a
    · have hn0 : n = 0 := by
        simp [findIndexJs, hpa] at h
        omega
      subst hn0
      exact ⟨by simp, by simpa using hpa, by omega⟩
    · rcases findIndexJs_cases p t with hnone | ⟨m, hm, hmlt⟩
      · simp [findIndexJs, hpa, hnone] at h
      · have hmn : ¬ ((m : ℤ) < 0) := by omega
        have hstep : findIndexJs p (a :: t) = (m : ℤ) + 1 := by
          simp [findIndexJs, hpa, hm, hmn]
        rw [hstep] at h
        have hn : n = m + 1 := by omega
        subst hn
        obtain ⟨hmlen, hpm, hprior⟩ := ih m hm
        refine ⟨by simpa using Nat.succ_lt_succ hmlen, by simpa using hpm, ?h2⟩
        intro j hj hjlen
        match j with
        | 0 => simpa using hpa
        | j + 1 =>
          have := hprior j (by omega) (by simpa using Nat.lt_of_succ_lt_succ hjlen)
          simpa using this

end RTN

namespace RTN

theorem tickLoop_fst_nonneg (td : ℚ) (fuel : ℕ) (acc tick : ℚ) (h : 0 ≤ acc) :
    0 ≤ (tickLoop td fuel acc tick).1 := by
  induction fuel generalizing acc tick with
  | zero => simpa [tickLoop]
  | succ fuel ih =>
    simp only [tickLoop]
    split
    next hlt => exact ih _ _ (by linarith)
    next hge => simpa

theorem tickLoop_fst_le (td : ℚ) (fuel : ℕ) (acc tick : ℚ)
    (h : acc ≤ td + fuel * td) : (tickLoop td fuel acc tick).1 ≤ td := by
  induction fuel generalizing acc tick with
  | zero =>
    simp only [tickLoop]
    push_cast at h
    linarith
  | succ fuel ih =>
    simp only [tickLoop]
    split
    next hlt =>
      refine ih _ _ ?h2
      push_cast at h ⊢
      linarith
    next hge => exact not_lt.mp hge

theorem ceil_fuel_sufficient (acc td : ℚ) (htd : 0 < td) :
    acc ≤ td + ((Int.ceil (acc / td)).toNat : ℚ) * td := by
  by_cases hacc : acc ≤ td
  · have h0 : (0:ℚ) ≤ ((Int.ceil (acc / td)).toNat : ℚ) * td := by positivity
    linarith
  · push_neg at hacc
    have h1 : (0:ℚ) < acc / td := div_pos (by linarith) htd
    have hceil : acc / td ≤ ((Int.ceil (acc / td) : ℤ) : ℚ) := Int.le_ceil _
    have hpos : (0:ℤ) ≤ Int.ceil (acc / td) := Int.ceil_nonneg h1.le
    have hcast : (((Int.ceil (acc / td)).toNat : ℕ) : ℚ) = ((Int.ceil (acc / td) : ℤ) : ℚ) := by
      exact_mod_cast congrArg (fun z : ℤ => (z : ℚ)) (Int.toNat_of_nonneg hpos)
    rw [hcast]
    have hmul : acc ≤ ((Int.ceil (acc / td) : ℤ) : ℚ) * td := (div_le_iff₀ htd).mp hceil
    linarith

theorem advanceClock_proj (rdt : ℚ) (c : Client) :
    (advanceClock rdt c).net = c.net ∧
    (advanceClock rdt c).tickDuration = c.tickDuration ∧
    (advanceClock rdt c).clockPaused = c.clockPaused ∧
    (advanceClock rdt c).game = c.game ∧
    (advanceClock rdt c).prevNetState = c.prevNetState ∧
    (advanceClock rdt c).nextNetState = c.nextNetState := by
  unfold advanceClock
  split <;> simp

theorem advanceClock_acc_bounds (rdt : ℚ) (c : Client) (hp : c.clockPaused = false)
    (hacc : 0 ≤ c.tickAccumulator) (hrdt : 0 ≤ rdt) (htd : 0 < c.tickDuration) :
    0 ≤ (advanceClock rdt c).tickAccumulator ∧
    (advanceClock rdt c).tickAccumulator ≤ c.tickDuration := by
  unfold advanceClock
  rw [hp]
  simp only [Bool.false_eq_true, if_false]
  constructor
  · exact tickLoop_fst_nonneg _ _ _ _ (by linarith)
  · exact tickLoop_fst_le _ _ _ _ (ceil_fuel_sufficient _ _ htd)

theorem advanceClock_acc_nonneg (rdt : ℚ) (c : Client)
    (hacc : 0 ≤ c.tickAccumulator) (hrdt : 0 ≤ rdt) :
    0 ≤ (advanceClock rdt c).tickAccumulator := by
  unfold advanceClock
  split
  · exact hacc
  · exact tickLoop_fst_nonneg _ _ _ _ (by linarith)

end RTN

namespace RTN

theorem onReceive_sim (c : Client) (m : ServerNetMessage) :
    (onReceiveServerMessage c m).net.sim = c.net.sim := by
  simp only [onReceiveServerMessage]
  split
  · rfl
  · split <;> rfl

theorem onReceive_tickDuration (c : Client) (m : ServerNetMessage) :
    (onReceiveServerMessage c m).tickDuration =
      driftDuration (pushSample c.net.measured.jitterBackBuffer (m.tick - clientTime c)) := by
  simp only [onReceiveServerMessage]
  split
  · rfl
  · split <;> rfl

theorem onReceive_jbb (c : Client) (m : ServerNetMessage) :
    (onReceiveServerMessage c m).net.measured.jitterBackBuffer =
      pushSample c.net.measured.jitterBackBuffer (m.tick - clientTime c) := by
  simp only [onReceiveServerMessage]
  split
  · rfl
  · split <;> rfl

theorem onReceive_lrt (c : Client) (m : ServerNetMessage) :
    (onReceiveServerMessage c m).net.lastReceivedTick =
      if m.tick < c.net.lastReceivedTick then c.net.lastReceivedTick else m.tick := by
  simp only [onReceiveServerMessage]
  split
  · simp_all
  · split <;> simp_all

theorem onReceive_backBuffer (c : Client) (m : ServerNetMessage) :
    (onReceiveServerMessage c m).net.backBuffer =
      if m.tick < c.net.lastReceivedTick then c.net.backBuffer
      else c.net.backBuffer ++ [m] := by
  simp only [onReceiveServerMessage]
  split
  · simp_all
  · split <;> simp_all

theorem onReceive_stale (c : Client) (m : ServerNetMessage)
    (h : m.tick < c.net.lastReceivedTick) :
    onReceiveServerMessage c m =
      { c with
          net.measured.jitterBackBuffer :=
            pushSample c.net.measured.jitterBackBuffer (m.tick - clientTime c)
          tickDuration :=
            driftDuration
              (pushSample c.net.measured.jitterBackBuffer (m.tick - clientTime c)) } := by
  unfold onReceiveServerMessage
  simp [h]

theorem onReceive_acc (c : Client) (m : ServerNetMessage) :
    (onReceiveServerMessage c m).tickAccumulator = c.tickAccumulator ∨
    (onReceiveServerMessage c m).tickAccumulator = 0 := by
  simp only [onReceiveServerMessage]
  split
  · exact Or.inl rfl
  · split
    · exact Or.inr rfl
    · exact Or.inl rfl

end RTN

namespace RTN

theorem foldl_inFlightStep_fst (P : Client → Prop)
    (hrecv : ∀ c m, P c → P (onReceiveServerMessage c m))
    (rdt : ℚ) (l : List ClientInFlightMessage) :
    ∀ c ks, P c → P (l.foldl (inFlightStep rdt) (c, ks)).1 := by
  induction l with
  | nil =>
    intro c ks h
    exact h
  | cons a t ih =>
    intro c ks h
    simp only [List.foldl_cons, inFlightStep]
    split
    · exact ih _ _ (hrecv _ _ h)
    · exact ih _ _ h

theorem processInFlight_preserve (P : Client → Prop)
    (hrecv : ∀ c m, P c → P (onReceiveServerMessage c m))
    (hifm : ∀ c l, P c → P { c with net.sim.inFlightMessages := l })
    (rdt : ℚ) (c : Client) (h : P c) : P (processInFlight rdt c) := by
  unfold processInFlight
  exact hifm _ _ (foldl_inFlightStep_fst P hrecv rdt _ c [] h)

theorem processInFlight_singleton (rdt : ℚ) (c : Client) (m : ClientInFlightMessage)
    (h : c.net.sim.inFlightMessages = [m]) :
    processInFlight rdt c =
      if m.timeRemaining - rdt ≤ 0 then
        { onReceiveServerMessage c m.message with net.sim.inFlightMessages := [] }
      else
        { c with net.sim.inFlightMessages :=
            [{ m with timeRemaining := m.timeRemaining - rdt }] } := by
  unfold processInFlight
  rw [h]
  simp only [List.foldl_cons, List.foldl_nil, inFlightStep]
  split
  · rfl
  · rfl

theorem interpApply_proj (c : Client) (t : ℚ) (pn nn : Option ServerNetMessage) :
    (interpApply c t pn nn).net = c.net ∧
    (interpApply c t pn nn).tick = c.tick ∧
    (interpApply c t pn nn).tickAccumulator = c.tickAccumulator ∧
    (interpApply c t pn nn).tickDuration = c.tickDuration ∧
    (interpApply c t pn nn).clockPaused = c.clockPaused ∧
    (interpApply c t pn nn).prevNetState = c.prevNetState ∧
    (interpApply c t pn nn).nextNetState = c.nextNetState := by
  unfold interpApply
  cases nn <;> cases pn <;> simp

theorem spliceDrop_natCast_sub_one {α : Type} (l : List α) (n : ℕ) :
    spliceDrop l ((n : ℤ) - 1) = l.drop (n - 1) := by
  unfold spliceDrop
  split
  next h =>
    have h0 : n - 1 = 0 := by omega
    rw [h0, List.drop_zero]
  next h =>
    congr 1
    omega

theorem interpSection_pause (c : Client) (h : pauseCondition c = true) :
    interpSection c = { c with clockPaused := true } := by
  unfold interpSection
  rw [h]
  simp

end RTN

namespace RTN

theorem interpSection_findNone (c : Client)
    (h1 : pauseCondition c = false)
    (h2 : findIndexJs (fun m => decide (targetSubTickOf c < m.tick)) c.net.backBuffer = -1) :
    interpSection c = { c with prevNetState := none, nextNetState := none } := by
  unfold interpSection
  rw [h1]
  simp only [Bool.false_eq_true, if_false, h2]
  norm_num [spliceDrop, interpApply]

theorem interpSection_findZero (c : Client)
    (h1 : pauseCondition c = false)
    (h2 : findIndexJs (fun m => decide (targetSubTickOf c < m.tick)) c.net.backBuffer = 0) :
    interpSection c =
      { c with prevNetState := none, nextNetState := c.net.backBuffer[0]? } := by
  unfold interpSection
  rw [h1]
  simp only [Bool.false_eq_true, if_false, h2]
  norm_num [spliceDrop]
  cases hb : c.net.backBuffer[0]? with
  | none => simp [interpApply]
  | some b => simp [interpApply]

theorem interpSection_findPos (c : Client) (n : ℕ)
    (h1 : pauseCondition c = false)
    (h2 : findIndexJs (fun m => decide (targetSubTickOf c < m.tick)) c.net.backBuffer = (n : ℤ))
    (hn : 1 ≤ n) :
    interpSection c =
      interpApply
        { c with prevNetState := c.net.backBuffer[n - 1]?,
                 nextNetState := c.net.backBuffer[n]?,
                 net.backBuffer := c.net.backBuffer.drop (n - 1) }
        (targetSubTickOf c) (c.net.backBuffer[n - 1]?) (c.net.backBuffer[n]?) := by
  unfold interpSection
  rw [h1]
  simp only [Bool.false_eq_true, if_false, h2]
  rw [spliceDrop_natCast_sub_one]
  have hpos : (0 : ℤ) < (n : ℤ) := by omega
  have hnneg : (0 : ℤ) ≤ (n : ℤ) := by omega
  have ht1 : ((n : ℤ) - 1).toNat = n - 1 := by omega
  have ht2 : ((n : ℤ)).toNat = n := by omega
  simp only [hpos, hnneg, if_pos, ht1, ht2]

end RTN

namespace RTN

theorem getLastQ_drop_of_lt {α : Type} (l : List α) (k : ℕ) (h : k < l.length) :
    (l.drop k).getLast? = l.getLast? := by
  rw [List.getLast?_eq_getElem?, List.getLast?_eq_getElem?, List.getElem?_drop,
    List.length_drop]
  congr 1
  omega

theorem findIndexJs_cons_cons {α : Type} (p : α → Bool) (a b : α) (rest : List α)
    (ha : p a = false) (hb : p b = true) :
    findIndexJs p (a :: b :: rest) = 1 := by
  simp [findIndexJs, ha, hb]

theorem interpolateEntitiesFrom_idem (prevPos nextPos : List Vec2) (alpha : ℚ)
    (es : List Entity) : ∀ k : ℕ,
    interpolateEntitiesFrom prevPos nextPos alpha k
        (interpolateEntitiesFrom prevPos nextPos alpha k es) =
      interpolateEntitiesFrom prevPos nextPos alpha k es := by
  induction es with
  | nil =>
    intro k
    rfl
  | cons e t ih =>
    intro k
    simp only [interpolateEntitiesFrom]
    cases hp : prevPos[k]? with
    | none => simp [interpolateEntitiesFrom, hp, ih]
    | some pp =>
      cases hq : nextPos[k]? with
      | none => simp [interpolateEntitiesFrom, hp, hq, ih]
      | some np => simp [interpolateEntitiesFrom, hp, hq, ih]

theorem interpolateEntities_idem (es : List Entity) (prevPos nextPos : List Vec2)
    (alpha : ℚ) :
    interpolateEntities (interpolateEntities es prevPos nextPos alpha)
        prevPos nextPos alpha =
      interpolateEntities es prevPos nextPos alpha :=
  interpolateEntitiesFrom_idem prevPos nextPos alpha es 0

end RTN

namespace RTN

theorem interpSection_fixed (c1 : Client) (pm nm : ServerNetMessage)
    (hpause : pauseCondition c1 = false)
    (hfind : findIndexJs (fun m => decide (targetSubTickOf c1 < m.tick))
        c1.net.backBuffer = ((1 : ℕ) : ℤ))
    (hget0 : c1.net.backBuffer[0]? = some pm)
    (hget1 : c1.net.backBuffer[1]? = some nm)
    (hprevF : c1.prevNetState = some pm)
    (hnextF : c1.nextNetState = some nm)
    (hent : interpolateEntities c1.game.entities pm.entityPositions nm.entityPositions
        (1 - ((nm.tick - targetSubTickOf c1) / (nm.tick - pm.tick))) = c1.game.entities) :
    interpSection c1 = c1 := by
  rw [interpSection_findPos c1 1 hpause hfind (le_refl 1)]
  norm_num
  rw [hget0, hget1]
  simp only [interpApply]
  obtain ⟨⟨es⟩, net, tk, ta, cp, td, pv, nx⟩ := c1
  simp only at hprevF hnextF hent ⊢
  subst hprevF hnextF
  simp only [Client.mk.injEq, Game.mk.injEq, and_true, true_and]
  simpa using hent

end RTN

namespace RTN

theorem pauseCondition_congr (c c2 : Client)
    (hbb : c2.net.backBuffer.getLast? = c.net.backBuffer.getLast?)
    (ht : targetSubTickOf c2 = targetSubTickOf c) :
    pauseCondition c2 = pauseCondition c := by
  unfold pauseCondition
  rw [hbb, ht]

theorem interpSection_idem (c : Client) :
    interpSection (interpSection c) = interpSection c := by
  by_cases hp : pauseCondition c = true
  · rw [interpSection_pause c hp]
    have hp2 : pauseCondition { c with clockPaused := true } = true := hp
    rw [interpSection_pause _ hp2]
  · have hp1 : pauseCondition c = false := by simpa using hp
    rcases findIndexJs_cases (fun m => decide (targetSubTickOf c < m.tick))
        c.net.backBuffer with hidx | ⟨n, hidx, hlen⟩
    · rw [interpSection_findNone c hp1 hidx]
      have hp1b : pauseCondition { c with prevNetState := none, nextNetState := none } =
          false := hp1
      have hidxb : findIndexJs
          (fun m => decide
            (targetSubTickOf { c with prevNetState := none, nextNetState := none } < m.tick))
          ({ c with prevNetState := none, nextNetState := none } : Client).net.backBuffer =
          -1 := hidx
      rw [interpSection_findNone _ hp1b hidxb]
    · match n, hidx, hlen with
      | 0, hidx, hlen =>
        have hidx0 : findIndexJs (fun m => decide (targetSubTickOf c < m.tick))
            c.net.backBuffer = 0 := by exact_mod_cast hidx
        rw [interpSection_findZero c hp1 hidx0]
        have hp1b : pauseCondition { c with prevNetState := none, nextNetState := c.net.backBuffer[0]? } = false := hp1
        have hidxb : findIndexJs (fun m => decide (targetSubTickOf { c with prevNetState := none, nextNetState := c.net.backBuffer[0]? } < m.tick)) ({ c with prevNetState := none, nextNetState := c.net.backBuffer[0]? } : Client).net.backBuffer = 0 := hidx0
        rw [interpSection_findZero _ hp1b hidxb]
      | Nat.succ k, hidx, hlen =>
        obtain ⟨hnlt, hpn, hprior⟩ := findIndexJs_spec _ _ _ hidx
        have hn1 : (1:ℕ) ≤ k + 1 := by omega
        have hn1lt : k + 1 - 1 < c.net.backBuffer.length := by omega
        have hpn1 := hprior (k + 1 - 1) (by omega) hn1lt
        have hget0 : c.net.backBuffer[k + 1 - 1]? =
            some (c.net.backBuffer.get ⟨k + 1 - 1, hn1lt⟩) := List.getElem?_eq_getElem hn1lt
        have hget1 : c.net.backBuffer[k + 1]? =
            some (c.net.backBuffer.get ⟨k + 1, hnlt⟩) := List.getElem?_eq_getElem hnlt
        rw [interpSection_findPos c (k + 1) hp1 hidx hn1, hget0, hget1]
        have hdecomp : c.net.backBuffer.drop (k + 1 - 1) =
            c.net.backBuffer.get ⟨k + 1 - 1, hn1lt⟩ ::
              c.net.backBuffer.get ⟨k + 1, hnlt⟩ :: c.net.backBuffer.drop (k + 1 + 1) := by
          rw [List.drop_eq_getElem_cons hn1lt]
          have hs : k + 1 - 1 + 1 = k + 1 := by omega
          rw [hs, List.drop_eq_getElem_cons hnlt]
          rfl
        refine interpSection_fixed _ _ _ ?hpause ?hfind ?hg0 ?hg1 rfl rfl ?hent
        case hpause =>
          refine Eq.trans (pauseCondition_congr c _ ?hbb rfl) hp1
          exact getLastQ_drop_of_lt c.net.backBuffer (k + 1 - 1) (by omega)
        case hfind =>
          show findIndexJs (fun m => decide (targetSubTickOf c < m.tick))
            (c.net.backBuffer.drop (k + 1 - 1)) = ((1:ℕ) : ℤ)
          rw [hdecomp]
          have h1 := findIndexJs_cons_cons (fun m => decide (targetSubTickOf c < m.tick)) (c.net.backBuffer.get ⟨k + 1 - 1, hn1lt⟩) (c.net.backBuffer.get ⟨k + 1, hnlt⟩) (List.drop (k + 1 + 1) c.net.backBuffer) hpn1 hpn
          rw [h1]
          norm_num
        case hg0 =>
          show (c.net.backBuffer.drop (k + 1 - 1))[0]? = _
          rw [hdecomp]
          simp
        case hg1 =>
          show (c.net.backBuffer.drop (k + 1 - 1))[1]? = _
          rw [hdecomp]
          simp
        case hent =>
          exact interpolateEntities_idem _ _ _ _

end RTN

namespace RTN

theorem interpApply_net (c : Client) (t : ℚ) (pn nn : Option ServerNetMessage) :
    (interpApply c t pn nn).net = c.net := by
  unfold interpApply
  cases nn <;> cases pn <;> simp

theorem interpApply_tick (c : Client) (t : ℚ) (pn nn : Option ServerNetMessage) :
    (interpApply c t pn nn).tick = c.tick := by
  unfold interpApply
  cases nn <;> cases pn <;> simp

theorem interpApply_acc (c : Client) (t : ℚ) (pn nn : Option ServerNetMessage) :
    (interpApply c t pn nn).tickAccumulator = c.tickAccumulator := by
  unfold interpApply
  cases nn <;> cases pn <;> simp

theorem interpApply_td (c : Client) (t : ℚ) (pn nn : Option ServerNetMessage) :
    (interpApply c t pn nn).tickDuration = c.tickDuration := by
  unfold interpApply
  cases nn <;> cases pn <;> simp

theorem spliceDrop_is_drop {α : Type} (l : List α) (d : ℤ) :
    ∃ k : ℕ, spliceDrop l d = l.drop k := by
  unfold spliceDrop
  split
  · exact ⟨0, rfl⟩
  · exact ⟨d.toNat, rfl⟩

theorem interpSection_proj (c : Client) :
    (interpSection c).tick = c.tick ∧
    (interpSection c).tickAccumulator = c.tickAccumulator ∧
    (interpSection c).tickDuration = c.tickDuration ∧
    (interpSection c).net.lastReceivedTick = c.net.lastReceivedTick ∧
    (interpSection c).net.sim = c.net.sim ∧
    (interpSection c).net.measured = c.net.measured ∧
    (interpSection c).net.interpolationDelay = c.net.interpolationDelay ∧
    ∃ k : ℕ, (interpSection c).net.backBuffer = c.net.backBuffer.drop k := by
  unfold interpSection
  split
  next hpc => exact ⟨rfl, rfl, rfl, rfl, rfl, rfl, rfl, 0, rfl⟩
  next hpc =>
    simp only [interpApply_net, interpApply_tick, interpApply_acc, interpApply_td]
    exact ⟨trivial, trivial, trivial, trivial, trivial, trivial, trivial, spliceDrop_is_drop _ _⟩

end RTN

namespace RTN

theorem driftDuration_ge (jbb : List ℚ) :
    SERVER_TICK_DURATION * (9/10) ≤ driftDuration jbb :=
  le_max_left _ _

theorem onReceive_td_ge (c : Client) (m : ServerNetMessage) :
    SERVER_TICK_DURATION * (9/10) ≤ (onReceiveServerMessage c m).tickDuration := by
  rw [onReceive_tickDuration]
  exact driftDuration_ge _

theorem Inv_onReceive (c : Client) (m : ServerNetMessage) (h : Inv c) :
    Inv (onReceiveServerMessage c m) := by
  obtain ⟨hs, hb, ha, ht⟩ := h
  refine ⟨?s, ?b, ?a, onReceive_td_ge c m⟩
  case s =>
    unfold BufferSorted
    rw [onReceive_backBuffer]
    split
    next hst => exact hs
    next hst =>
      rw [List.pairwise_append]
      refine ⟨hs, by simp, ?bd⟩
      intro a ha2 b hb2
      simp only [List.mem_singleton] at hb2
      rw [hb2]
      have h1 := hb a ha2
      have h2 : c.net.lastReceivedTick ≤ m.tick := not_lt.mp hst
      exact le_trans h1 h2
  case b =>
    unfold BufferBounded
    intro x hx
    rw [onReceive_backBuffer] at hx
    rw [onReceive_lrt]
    by_cases hst : m.tick < c.net.lastReceivedTick
    · rw [if_pos hst] at hx ⊢
      exact hb x hx
    · rw [if_neg hst] at hx ⊢
      have h2 : c.net.lastReceivedTick ≤ m.tick := not_lt.mp hst
      rcases List.mem_append.mp hx with hx1 | hx2
      · exact le_trans (hb x hx1) h2
      · simp only [List.mem_singleton] at hx2
        rw [hx2]
  case a =>
    rcases onReceive_acc c m with h1 | h1 <;> rw [h1]
    exact ha

theorem Inv_inFlightUpdate (c : Client) (l : List ClientInFlightMessage) (h : Inv c) :
    Inv { c with net.sim.inFlightMessages := l } := h

theorem Inv_processInFlight (rdt : ℚ) (c : Client) (h : Inv c) :
    Inv (processInFlight rdt c) :=
  processInFlight_preserve Inv (fun c m h => Inv_onReceive c m h)
    (fun c l h => Inv_inFlightUpdate c l h) rdt c h

theorem Inv_advanceClock (rdt : ℚ) (c : Client) (hrdt : 0 ≤ rdt) (h : Inv c) :
    Inv (advanceClock rdt c) := by
  obtain ⟨hs, hb, ha, ht⟩ := h
  obtain ⟨hnet, htd, _hcp, _hg, _hp, _hn⟩ := advanceClock_proj rdt c
  refine ⟨?s, ?b, ?a, ?t⟩
  case s =>
    unfold BufferSorted
    rw [hnet]
    exact hs
  case b =>
    unfold BufferBounded
    rw [hnet]
    exact hb
  case a => exact advanceClock_acc_nonneg rdt c ha hrdt
  case t =>
    rw [htd]
    exact ht

theorem Inv_interpSection (c : Client) (h : Inv c) : Inv (interpSection c) := by
  obtain ⟨hs, hb, ha, ht⟩ := h
  obtain ⟨htick, hacc, htd, hlrt, _hsim, _hms, _hid, k, hbb⟩ := interpSection_proj c
  refine ⟨?s, ?b, ?a, ?t⟩
  case s =>
    unfold BufferSorted
    rw [hbb]
    exact List.Pairwise.sublist (List.drop_sublist _ _) hs
  case b =>
    unfold BufferBounded
    rw [hbb, hlrt]
    intro x hx
    exact hb x (List.mem_of_mem_drop hx)
  case a =>
    rw [hacc]
    exact ha
  case t =>
    rw [htd]
    exact ht

theorem Inv_serverNetSend (msg : ServerNetMessage) (d j : ℚ) (c : Client) (h : Inv c) :
    Inv (serverNetSend msg d j c) := by
  simp only [serverNetSend]
  split
  · exact h
  · exact h

theorem Inv_clientFrame (rdt : ℚ) (c : Client) (hrdt : 0 ≤ rdt) (h : Inv c) :
    Inv (clientFrame rdt c) :=
  Inv_interpSection _ (Inv_advanceClock rdt _ hrdt (Inv_processInFlight rdt c h))

theorem Inv_initial : Inv initialClient := by
  refine ⟨?s, ?b, ?a, ?t⟩
  case s => simp [BufferSorted, initialClient]
  case b => simp [BufferBounded, initialClient]
  case a => simp [initialClient]
  case t =>
    show SERVER_TICK_DURATION * (9/10) ≤ SERVER_TICK_DURATION
    norm_num [SERVER_TICK_DURATION]

theorem Inv_step (a b : Client) (hstep : ClientStep a b) (h : Inv a) : Inv b := by
  cases hstep with
  | frame rdt c hrdt => exact Inv_clientFrame rdt a hrdt h
  | netSend msg d j c => exact Inv_serverNetSend msg d j a h
  | deliver msg c => exact Inv_onReceive a msg h

theorem reachable_inv (c : Client) (h : Reachable c) : Inv c := by
  induction h with
  | init => exact Inv_initial
  | step _hr hstep ih => exact Inv_step _ _ hstep ih

end RTN

namespace RTN

theorem onReceive_lrt_mono (c : Client) (m : ServerNetMessage) :
    c.net.lastReceivedTick ≤ (onReceiveServerMessage c m).net.lastReceivedTick := by
  rw [onReceive_lrt]
  split
  · exact le_refl _
  · next h => exact not_lt.mp h

theorem processInFlight_lrt_mono (rdt : ℚ) (c : Client) :
    c.net.lastReceivedTick ≤ (processInFlight rdt c).net.lastReceivedTick :=
  processInFlight_preserve (fun x => c.net.lastReceivedTick ≤ x.net.lastReceivedTick)
    (fun x m hx => le_trans hx (onReceive_lrt_mono x m))
    (fun _ _ hx => hx) rdt c (le_refl _)

theorem serverNetSend_drop (msg : ServerNetMessage) (d j : ℚ) (c : Client)
    (h : d < c.net.sim.packetLoss) : serverNetSend msg d j c = c := by
  unfold serverNetSend
  simp [h]

theorem serverNetSend_enqueue (msg : ServerNetMessage) (d j : ℚ) (c : Client)
    (h : ¬ d < c.net.sim.packetLoss) :
    serverNetSend msg d j c =
      { c with net.sim.inFlightMessages := c.net.sim.inFlightMessages ++
          [{ message := msg,
             timeRemaining :=
               ((c.net.sim.latency / 2) + (2 * j - 1) * c.net.sim.jitter) / 1000 }] } := by
  unfold serverNetSend
  simp [h]

theorem clientFrame_lrt_mono (rdt : ℚ) (c : Client) :
    c.net.lastReceivedTick ≤ (clientFrame rdt c).net.lastReceivedTick := by
  unfold clientFrame
  obtain ⟨_, _, _, hlrt, _, _, _, _⟩ :=
    interpSection_proj (advanceClock rdt (processInFlight rdt c))
  rw [hlrt]
  obtain ⟨hnet, _, _, _, _, _⟩ := advanceClock_proj rdt (processInFlight rdt c)
  rw [hnet]
  exact processInFlight_lrt_mono rdt c

theorem serverNetSend_lrt (msg : ServerNetMessage) (d j : ℚ) (c : Client) :
    (serverNetSend msg d j c).net.lastReceivedTick = c.net.lastReceivedTick := by
  simp only [serverNetSend]
  split <;> rfl

theorem interpolateEntitiesFrom_getElem (pp np : List Vec2) (al : ℚ) (es : List Entity) :
    ∀ (k i : ℕ) (e : Entity) (pe ne : Vec2),
      es[i]? = some e → pp[k + i]? = some pe → np[k + i]? = some ne →
      (interpolateEntitiesFrom pp np al k es)[i]? =
        some { e with position := { x := lerp pe.x ne.x al, y := lerp pe.y ne.y al } } := by
  induction es with
  | nil =>
    intro k i e pe ne he hp hn
    simp at he
  | cons a t ih =>
    intro k i e pe ne he hp hn
    cases i with
    | zero =>
      simp only [List.getElem?_cons_zero, Option.some.injEq] at he
      rw [Nat.add_zero] at hp hn
      simp only [interpolateEntitiesFrom, List.getElem?_cons_zero, hp, hn]
      rw [he]
    | succ jj =>
      simp only [List.getElem?_cons_succ] at he
      have hp2 : pp[(k + 1) + jj]? = some pe := by
        rw [show (k + 1) + jj = k + (jj + 1) from by omega]
        exact hp
      have hn2 : np[(k + 1) + jj]? = some ne := by
        rw [show (k + 1) + jj = k + (jj + 1) from by omega]
        exact hn
      simp only [interpolateEntitiesFrom, List.getElem?_cons_succ]
      exact ih (k + 1) jj e pe ne he hp2 hn2

theorem interpolateEntities_getElem (es : List Entity) (pp np : List Vec2) (al : ℚ)
    (i : ℕ) (e : Entity) (pe ne : Vec2)
    (he : es[i]? = some e) (hp : pp[i]? = some pe) (hn : np[i]? = some ne) :
    (interpolateEntities es pp np al)[i]? =
      some { e with position := { x := lerp pe.x ne.x al, y := lerp pe.y ne.y al } } := by
  refine interpolateEntitiesFrom_getElem pp np al es 0 i e pe ne he ?hp ?hn
  · simpa using hp
  · simpa using hn

end RTN

namespace RTN

/-- C1 (counterexample): a message whose tick (3) is strictly below
lastAcceptedTick (5) is discarded, yet the OffsetSampleWindow and
tickDuration do change, because offset sampling and drift correction run
before the admission gate. -/
theorem c1_counterexample :
    ({ tick := 3, entityPositions := [] } : ServerNetMessage).tick <
      (onReceiveServerMessage initialClient { tick := 5, entityPositions := [] }).net.lastReceivedTick ∧
    (onReceiveServerMessage (onReceiveServerMessage initialClient { tick := 5, entityPositions := [] }) { tick := 3, entityPositions := [] }).tickDuration ≠
      (onReceiveServerMessage initialClient { tick := 5, entityPositions := [] }).tickDuration ∧
    (onReceiveServerMessage (onReceiveServerMessage initialClient { tick := 5, entityPositions := [] }) { tick := 3, entityPositions := [] }).net.measured.jitterBackBuffer ≠
      (onReceiveServerMessage initialClient { tick := 5, entityPositions := [] }).net.measured.jitterBackBuffer := by
  refine ⟨by decide, ?td, ?jbb⟩
  case td =>
    norm_num [onReceiveServerMessage, driftDuration, pushSample, meanOf, clientTime,
      initialClient, SERVER_TICK_DURATION, MAX_JITTER_ROLLING_AVERAGE, max_def]
  case jbb =>
    norm_num [onReceiveServerMessage, driftDuration, pushSample, meanOf, clientTime,
      initialClient, SERVER_TICK_DURATION, MAX_JITTER_ROLLING_AVERAGE, max_def]

/-- C1 (amended): a stale message (tick strictly below lastAcceptedTick) is
discarded by the gate without touching the SnapshotBuffer, lastAcceptedTick,
the clock fields, or the transport; but the offset sample is still pushed
into the OffsetSampleWindow and tickDuration is still recomputed, because
those steps precede the gate. -/
theorem c1_stale_discard (c : Client) (m : ServerNetMessage)
    (h : m.tick < c.net.lastReceivedTick) :
    (onReceiveServerMessage c m).net.backBuffer = c.net.backBuffer ∧
    (onReceiveServerMessage c m).net.lastReceivedTick = c.net.lastReceivedTick ∧
    (onReceiveServerMessage c m).tick = c.tick ∧
    (onReceiveServerMessage c m).tickAccumulator = c.tickAccumulator ∧
    (onReceiveServerMessage c m).clockPaused = c.clockPaused ∧
    (onReceiveServerMessage c m).net.sim = c.net.sim ∧
    (onReceiveServerMessage c m).net.interpolationDelay = c.net.interpolationDelay ∧
    (onReceiveServerMessage c m).net.measured.jitterBackBuffer =
      pushSample c.net.measured.jitterBackBuffer (m.tick - clientTime c) ∧
    (onReceiveServerMessage c m).tickDuration =
      driftDuration (pushSample c.net.measured.jitterBackBuffer (m.tick - clientTime c)) := by
  rw [onReceive_stale c m h]
  exact ⟨rfl, rfl, rfl, rfl, rfl, rfl, rfl, rfl, rfl⟩

/-- C1 witness: the amended theorem applied at a concrete stale arrival. -/
theorem c1_stale_discard_witness :
    ({ tick := 3, entityPositions := [] } : ServerNetMessage).tick <
      (onReceiveServerMessage initialClient { tick := 5, entityPositions := [] }).net.lastReceivedTick ∧
    (onReceiveServerMessage (onReceiveServerMessage initialClient { tick := 5, entityPositions := [] }) { tick := 3, entityPositions := [] }).net.backBuffer =
      (onReceiveServerMessage initialClient { tick := 5, entityPositions := [] }).net.backBuffer :=
  ⟨by decide,
    (c1_stale_discard (onReceiveServerMessage initialClient { tick := 5, entityPositions := [] })
      { tick := 3, entityPositions := [] } (by decide)).1⟩

/-- C2: in every reachable client state the tick duration is at least ninety
percent of SERVER_TICK_DURATION, and every drift-correction update writes
exactly max(base*0.9, base - 0.01*avgOffset*base) over the updated window. -/
theorem c2_tickDuration_lower_bound :
    (∀ c : Client, Reachable c → SERVER_TICK_DURATION * (9/10) ≤ c.tickDuration) ∧
    (∀ (c : Client) (m : ServerNetMessage),
      (onReceiveServerMessage c m).tickDuration =
        max (SERVER_TICK_DURATION * (9/10))
          (SERVER_TICK_DURATION -
            (1/100) * (meanOf (pushSample c.net.measured.jitterBackBuffer
              (m.tick - clientTime c)) * SERVER_TICK_DURATION))) := by
  constructor
  · intro c h
    exact (reachable_inv c h).2.2.2
  · intro c m
    rw [onReceive_tickDuration]
    rfl

/-- C2 witness: the lower bound evaluated at the initial client. -/
theorem c2_tickDuration_lower_bound_witness :
    SERVER_TICK_DURATION * (9/10) ≤ initialClient.tickDuration :=
  c2_tickDuration_lower_bound.1 initialClient Reachable.init

/-- C3 (counterexample): delivering the same tick-5 snapshot twice is allowed
through the gate (equality is not stale) and produces buffer ticks [5, 5],
which is not strictly ascending. -/
theorem c3_counterexample :
    ((onReceiveServerMessage (onReceiveServerMessage initialClient { tick := 5, entityPositions := [] }) { tick := 5, entityPositions := [] }).net.backBuffer.map (fun m => m.tick) = [5, 5]) ∧
    ¬ ((onReceiveServerMessage (onReceiveServerMessage initialClient { tick := 5, entityPositions := [] }) { tick := 5, entityPositions := [] }).net.backBuffer.Pairwise (fun a b => a.tick < b.tick)) ∧
    ({ tick := 5, entityPositions := [] } : ServerNetMessage).tick =
      (onReceiveServerMessage initialClient { tick := 5, entityPositions := [] }).net.lastReceivedTick := by
  refine ⟨by decide, ?p, by decide⟩
  intro hp
  have hbb : (onReceiveServerMessage (onReceiveServerMessage initialClient { tick := 5, entityPositions := [] }) { tick := 5, entityPositions := [] }).net.backBuffer = [{ tick := 5, entityPositions := [] }, { tick := 5, entityPositions := [] }] := by
    decide
  rw [hbb] at hp
  have h1 := (List.pairwise_cons.mp hp).1 _ (List.mem_singleton.mpr rfl)
  norm_num at h1

/-- C3 (amended): in every reachable state the SnapshotBuffer is sorted
non-decreasing by tick (equal neighbouring ticks can occur when a message
whose tick equals lastAcceptedTick passes the gate again). -/
theorem c3_buffer_sorted (c : Client) (h : Reachable c) : BufferSorted c :=
  (reachable_inv c h).1

/-- C3 witness: sortedness at the initial client. -/
theorem c3_buffer_sorted_witness : BufferSorted initialClient :=
  c3_buffer_sorted initialClient Reachable.init

end RTN

namespace RTN

/-- C4: the interpolation law: lerp reproduces the endpoints exactly at
alpha 0 and 1; every in-range entity is moved to the componentwise lerp of
the bracketing positions; and on the concrete bracket (tick 5 at the origin,
tick 7 at (10,10)) with target sub-tick 6 the frame outputs (5,5) with the
expected bracket states. -/
theorem c4_interpolation :
    (∀ a b : ℚ, lerp a b 0 = a ∧ lerp a b 1 = b) ∧
    (∀ (es : List Entity) (pp np : List Vec2) (al : ℚ) (i : ℕ) (e : Entity) (pe ne : Vec2),
      es[i]? = some e → pp[i]? = some pe → np[i]? = some ne →
      (interpolateEntities es pp np al)[i]? =
        some { e with position := { x := lerp pe.x ne.x al, y := lerp pe.y ne.y al } }) ∧
    ((interpSection bracketClient).game.entities.map (fun e => e.position) =
        [{ x := 5, y := 5 }] ∧
      (interpSection bracketClient).prevNetState = some snapA ∧
      (interpSection bracketClient).nextNetState = some snapB) := by
  refine ⟨?ends, ?gen, ?scenario⟩
  case ends =>
    intro a b
    constructor <;> (unfold lerp; ring)
  case gen =>
    intro es pp np al i e pe ne he hp hn
    exact interpolateEntities_getElem es pp np al i e pe ne he hp hn
  case scenario =>
    norm_num [interpSection, pauseCondition, targetSubTickOf, findIndexJs, spliceDrop,
      interpApply, interpolateEntities, interpolateEntitiesFrom, lerp, bracketClient,
      initialClient, initialEntity, snapA, snapB, SERVER_TICK_DURATION, NUM_ENTITIES]

/-- C4 witness: the componentwise law applied at a concrete entity and
bracket, with alpha one half. -/
theorem c4_interpolation_witness :
    (interpolateEntities [initialEntity] [{ x := 0, y := 0 }] [{ x := 10, y := 10 }] (1/2))[0]? =
      some { initialEntity with position := { x := lerp 0 10 (1/2), y := lerp 0 10 (1/2) } } :=
  c4_interpolation.2.1 [initialEntity] [{ x := 0, y := 0 }] [{ x := 10, y := 10 }] (1/2) 0
    initialEntity { x := 0, y := 0 } { x := 10, y := 10 } rfl rfl rfl

/-- C5: a send either drops (queue and client unchanged) when the drop roll
falls below packetLoss, or enqueues exactly one in-flight message with
timeRemaining = (latency/2 + u)/1000 where u = (2*roll - 1)*jitter lies in
[-jitter, jitter]; with latency 60, jitter 0, packetLoss 0 the delay is
exactly 3/100 seconds and the message is delivered exactly when the
transport has advanced by at least that much. -/
theorem c5_transport (c : Client) (msg : ServerNetMessage) (dropRoll jitterRoll rdt : ℚ)
    (hjr0 : 0 ≤ jitterRoll) (hjr1 : jitterRoll ≤ 1) (hjit : 0 ≤ c.net.sim.jitter)
    (hdr : 0 ≤ dropRoll) :
    (dropRoll < c.net.sim.packetLoss → serverNetSend msg dropRoll jitterRoll c = c) ∧
    (¬ dropRoll < c.net.sim.packetLoss →
      (serverNetSend msg dropRoll jitterRoll c).net.sim.inFlightMessages =
        c.net.sim.inFlightMessages ++
          [{ message := msg,
             timeRemaining :=
               ((c.net.sim.latency / 2) + (2 * jitterRoll - 1) * c.net.sim.jitter) / 1000 }] ∧
      -c.net.sim.jitter ≤ (2 * jitterRoll - 1) * c.net.sim.jitter ∧
      (2 * jitterRoll - 1) * c.net.sim.jitter ≤ c.net.sim.jitter) ∧
    (c.net.sim.latency = 60 → c.net.sim.jitter = 0 → c.net.sim.packetLoss = 0 →
      c.net.sim.inFlightMessages = [] →
      (serverNetSend msg dropRoll jitterRoll c).net.sim.inFlightMessages =
        [{ message := msg, timeRemaining := 3/100 }] ∧
      ((processInFlight rdt (serverNetSend msg dropRoll jitterRoll c)).net.sim.inFlightMessages
          = [] ↔ 3/100 ≤ rdt)) := by
  refine ⟨fun h => serverNetSend_drop msg dropRoll jitterRoll c h, ?keep, ?scenario⟩
  case keep =>
    intro h
    rw [serverNetSend_enqueue msg dropRoll jitterRoll c h]
    refine ⟨rfl, ?lo, ?hi⟩
    case lo => nlinarith [mul_nonneg (by linarith : (0:ℚ) ≤ 2 * jitterRoll) hjit]
    case hi => nlinarith [mul_nonneg (by linarith : (0:ℚ) ≤ 2 - 2 * jitterRoll) hjit]
  case scenario =>
    intro hl hj hp he
    have hnd : ¬ dropRoll < c.net.sim.packetLoss := by
      rw [hp]
      exact not_lt.mpr hdr
    have henq : (serverNetSend msg dropRoll jitterRoll c).net.sim.inFlightMessages =
        [{ message := msg, timeRemaining := 3/100 }] := by
      rw [serverNetSend_enqueue msg dropRoll jitterRoll c hnd, he, hl, hj]
      norm_num
    refine ⟨henq, ?deliv⟩
    rw [processInFlight_singleton rdt _ _ henq]
    split
    next hcond =>
      constructor
      · intro _
        linarith [hcond]
      · intro _
        rfl
    next hcond =>
      constructor
      · intro hfalse
        simp at hfalse
      · intro hge
        exact absurd (by linarith : (3:ℚ)/100 - rdt ≤ 0) hcond

/-- C5 witness: scenario A evaluated concretely. -/
theorem c5_transport_witness :
    (serverNetSend snapA 0 (1/2) (setSimConditions 60 0 0 initialClient)).net.sim.inFlightMessages =
      [{ message := snapA, timeRemaining := 3/100 }] ∧
    ((processInFlight 1 (serverNetSend snapA 0 (1/2) (setSimConditions 60 0 0 initialClient))).net.sim.inFlightMessages = [] ↔ (3:ℚ)/100 ≤ 1) :=
  (c5_transport (setSimConditions 60 0 0 initialClient) snapA 0 (1/2) 1
    (by norm_num) (by norm_num) (by decide) (by norm_num)).2.2
    (by decide) (by decide) (by decide) (by decide)

/-- C6: no operation of the source decreases lastReceivedTick: every client
step (frame with nonnegative delta, transport enqueue, or delivery) keeps it
monotonically non-decreasing. -/
theorem c6_lastReceivedTick_mono (a b : Client) (h : ClientStep a b) :
    a.net.lastReceivedTick ≤ b.net.lastReceivedTick := by
  cases h with
  | frame rdt c hrdt => exact clientFrame_lrt_mono rdt a
  | netSend msg d j c =>
    rw [serverNetSend_lrt]
  | deliver msg c => exact onReceive_lrt_mono a msg

/-- C6 witness: monotonicity across a concrete frame step. -/
theorem c6_lastReceivedTick_mono_witness :
    initialClient.net.lastReceivedTick ≤ (clientFrame 0 initialClient).net.lastReceivedTick :=
  c6_lastReceivedTick_mono initialClient (clientFrame 0 initialClient)
    (ClientStep.frame 0 initialClient (le_refl 0))

/-- C7: the bracket search, trim and interpolation pass is idempotent:
running it a second time on the resulting state (same target sub-tick, no
intervening admissions) returns the state unchanged, so the bracket ticks,
the buffer contents and the interpolated positions coincide with the first
run. -/
theorem c7_interp_idempotent (c : Client) :
    interpSection (interpSection c) = interpSection c :=
  interpSection_idem c

end RTN

namespace RTN

/-- C8 (counterexample): one frame of exactly one tick duration from the
initial state leaves the accumulator equal to tickDuration, so the
accumulator does not lie in the half-open interval [0, tickDuration). -/
theorem c8_counterexample :
    (clientFrame (1/90) initialClient).tickAccumulator =
      (clientFrame (1/90) initialClient).tickDuration ∧
    ¬ ((clientFrame (1/90) initialClient).tickAccumulator <
        (clientFrame (1/90) initialClient).tickDuration) ∧
    Reachable (clientFrame (1/90) initialClient) := by
  refine ⟨?eq, ?nlt, Reachable.step Reachable.init (ClientStep.frame (1/90) initialClient (by norm_num))⟩
  case eq =>
    norm_num [clientFrame, processInFlight, advanceClock, tickLoop, interpSection,
      pauseCondition, targetSubTickOf, initialClient, SERVER_TICK_DURATION]
  case nlt =>
    norm_num [clientFrame, processInFlight, advanceClock, tickLoop, interpSection,
      pauseCondition, targetSubTickOf, initialClient, SERVER_TICK_DURATION]

/-- C8 (amended): after the per-frame clock advance of a running (unpaused)
reachable client with a nonnegative frame delta, the accumulator lies in the
closed interval [0, tickDuration]; equality with tickDuration is attained
(see the counterexample), so the interval cannot be half-open. -/
theorem c8_accumulator_bounds (c : Client) (rdt : ℚ) (h : Reachable c)
    (hrdt : 0 ≤ rdt) (hp : c.clockPaused = false) :
    0 ≤ (advanceClock rdt c).tickAccumulator ∧
    (advanceClock rdt c).tickAccumulator ≤ (advanceClock rdt c).tickDuration := by
  obtain ⟨_, _, ha, ht⟩ := reachable_inv c h
  have htd : 0 < c.tickDuration := by
    have hb : (0:ℚ) < SERVER_TICK_DURATION * (9/10) := by
      norm_num [SERVER_TICK_DURATION]
    linarith
  obtain ⟨h0, h1⟩ := advanceClock_acc_bounds rdt c hp ha hrdt htd
  obtain ⟨_, htdeq, _, _, _, _⟩ := advanceClock_proj rdt c
  refine ⟨h0, ?ub⟩
  rw [htdeq]
  exact h1

/-- C8 witness: the amended bounds at the initial client with a zero delta. -/
theorem c8_accumulator_bounds_witness :
    0 ≤ (advanceClock 0 initialClient).tickAccumulator ∧
    (advanceClock 0 initialClient).tickAccumulator ≤ (advanceClock 0 initialClient).tickDuration :=
  c8_accumulator_bounds initialClient 0 Reachable.init (le_refl 0) rfl

/-- C9 (counterexample): the code has no configuration validation: a
packetLoss of 3/2 (outside [0,1]) and a jitter of -5 are stored verbatim by
the configuration surface, with no error and no clamping, and the resulting
state differs from the original. -/
theorem c9_counterexample :
    (setSimConditions 60 0 (3/2) initialClient).net.sim.packetLoss = 3/2 ∧
    ¬ ((3/2 : ℚ) ≤ 1) ∧
    (setSimConditions 60 (-5) 0 initialClient).net.sim.jitter = -5 ∧
    setSimConditions 60 0 (3/2) initialClient ≠ initialClient := by
  refine ⟨rfl, by norm_num, rfl, ?ne⟩
  intro hcontra
  have hpl : (setSimConditions 60 0 (3/2) initialClient).net.sim.packetLoss =
      initialClient.net.sim.packetLoss := by rw [hcontra]
  rw [show (setSimConditions 60 0 (3/2) initialClient).net.sim.packetLoss = 3/2 from rfl,
    show initialClient.net.sim.packetLoss = 0 from rfl] at hpl
  norm_num at hpl

/-- C9 (amended): the configuration surface performs no validation and no
clamping: every assigned value, in range or not, is stored verbatim and the
rest of the client is untouched. -/
theorem c9_no_validation (latency jitter packetLoss : ℚ) (c : Client) :
    (setSimConditions latency jitter packetLoss c).net.sim.latency = latency ∧
    (setSimConditions latency jitter packetLoss c).net.sim.jitter = jitter ∧
    (setSimConditions latency jitter packetLoss c).net.sim.packetLoss = packetLoss ∧
    (setSimConditions latency jitter packetLoss c).net.sim.inFlightMessages =
      c.net.sim.inFlightMessages ∧
    (setSimConditions latency jitter packetLoss c).net.measured = c.net.measured ∧
    (setSimConditions latency jitter packetLoss c).net.backBuffer = c.net.backBuffer ∧
    (setSimConditions latency jitter packetLoss c).net.lastReceivedTick =
      c.net.lastReceivedTick ∧
    (setSimConditions latency jitter packetLoss c).tickDuration = c.tickDuration ∧
    (setSimConditions latency jitter packetLoss c).tick = c.tick :=
  ⟨rfl, rfl, rfl, rfl, rfl, rfl, rfl, rfl, rfl⟩

/-- C10: when the sampled jitter makes latency/2 + u negative, the message is
still enqueued, with a negative timeRemaining, and the very next transport
advance delivers it for every nonnegative frame delta. -/
theorem c10_negative_delay (c : Client) (msg : ServerNetMessage)
    (dropRoll jitterRoll rdt : ℚ)
    (hdrop : ¬ dropRoll < c.net.sim.packetLoss)
    (hempty : c.net.sim.inFlightMessages = [])
    (hneg : c.net.sim.latency / 2 + (2 * jitterRoll - 1) * c.net.sim.jitter < 0)
    (hrdt : 0 ≤ rdt) :
    (serverNetSend msg dropRoll jitterRoll c).net.sim.inFlightMessages =
      [{ message := msg,
         timeRemaining :=
           ((c.net.sim.latency / 2) + (2 * jitterRoll - 1) * c.net.sim.jitter) / 1000 }] ∧
    ((c.net.sim.latency / 2) + (2 * jitterRoll - 1) * c.net.sim.jitter) / 1000 < 0 ∧
    processInFlight rdt (serverNetSend msg dropRoll jitterRoll c) =
      { onReceiveServerMessage (serverNetSend msg dropRoll jitterRoll c) msg with
          net.sim.inFlightMessages := [] } := by
  have henq : (serverNetSend msg dropRoll jitterRoll c).net.sim.inFlightMessages =
      [{ message := msg,
         timeRemaining :=
           ((c.net.sim.latency / 2) + (2 * jitterRoll - 1) * c.net.sim.jitter) / 1000 }] := by
    rw [serverNetSend_enqueue msg dropRoll jitterRoll c hdrop, hempty]
    rfl
  have hneg2 : ((c.net.sim.latency / 2) + (2 * jitterRoll - 1) * c.net.sim.jitter) / 1000 < 0 :=
    div_neg_of_neg_of_pos hneg (by norm_num)
  refine ⟨henq, hneg2, ?deliv⟩
  rw [processInFlight_singleton rdt _ _ henq]
  rw [if_pos (by simpa using le_of_lt (by linarith : ((c.net.sim.latency / 2) + (2 * jitterRoll - 1) * c.net.sim.jitter) / 1000 - rdt < 0))]

/-- C10 witness: latency 0, jitter 10 with a jitter roll of 0 gives a
negative delay, and the message is delivered by a zero-length advance. -/
theorem c10_negative_delay_witness :
    processInFlight 0 (serverNetSend snapA 0 0 (setSimConditions 0 10 0 initialClient)) =
      { onReceiveServerMessage (serverNetSend snapA 0 0 (setSimConditions 0 10 0 initialClient)) snapA with
          net.sim.inFlightMessages := [] } :=
  (c10_negative_delay (setSimConditions 0 10 0 initialClient) snapA 0 0 0
    (by decide) (by decide) (by norm_num [setSimConditions, initialClient]) (le_refl 0)).2.2

end RTN
